import Mathlib

/-!
Shallow embedding of `src/tools/scene_validator/scene_validator.py`.

The Python tool works on JSON-shaped dynamic values (the result of
`json.load`), so we first embed a JSON value type together with the
Python-level primitives the validator uses on such values: containment
(`key in d`), item access (`d[key]`), item assignment (`d[key] = v`),
`dict.get`, `len`, truthiness, `list.extend`, Python `==`, and the string
renderings `str()` / `repr()` / `json.dumps`.  Operations that can raise a
Python exception return `Except Unit _`; `.error ()` stands for a raised
exception (the validator only ever catches exceptions wholesale, never
inspects them, so the payload is irrelevant).

Python distinguishes `int` and `float` (JSON numbers parse to one or the
other) but compares them numerically, so the embedding keeps two numeric
constructors over `ℤ` and `ℚ` and compares by value, as Python `==` does.
-/

set_option maxHeartbeats 1000000

namespace SceneValidator

/-- A JSON value as produced by Python's `json.load`. -/
inductive JValue where
  | null : JValue
  | bool (b : Bool) : JValue
  | int (n : ℤ) : JValue
  | float (q : ℚ) : JValue
  | str (s : String) : JValue
  | arr (elems : List JValue) : JValue
  | obj (fields : List (String × JValue)) : JValue

/-- Numeric value of a Python object, when it is numeric.  Python treats
`bool` as a numeric type (`True == 1`). -/
def numVal : JValue → Option ℚ
  | .bool b => some (if b then 1 else 0)
  | .int n => some (n : ℚ)
  | .float q => some q
  | _ => none

/-- First-match lookup in an association list, as Python dict lookup
(JSON-parsed dicts have unique keys, so first match is the match). -/
def jLookup (k : String) : List (String × JValue) → Option JValue
  | [] => none
  | p :: rest => if p.1 = k then some p.2 else jLookup k rest

/-- Whether the character lists start the same way (needle is a leading
segment of the haystack). -/
def leadEq : List Char → List Char → Bool
  | [], _ => true
  | _ :: _, [] => false
  | a :: as, b :: bs => a == b && leadEq as bs

/-- Substring search on character lists. -/
def hasSub (needle : List Char) : List Char → Bool
  | [] => needle.isEmpty
  | h :: t => leadEq needle (h :: t) || hasSub needle t

/-- Python `needle in hay` for strings: substring containment. -/
def strIn (needle hay : String) : Bool :=
  hasSub needle.data hay.data

mutual

/-- Python `==` on JSON values: numbers (including booleans, which Python
treats as the integers 0 and 1) compare by numeric value, strings by
content, lists element-wise, dicts by key/value content regardless of
entry order (JSON-parsed dicts have unique keys, so a length check plus a
one-sided key/value inclusion is dict equality). -/
def pyEq (a b : JValue) : Bool :=
  match numVal a, numVal b with
  | some x, some y => x == y
  | _, _ =>
    match a, b with
    | .null, .null => true
    | .str s, .str t => s == t
    | .arr as, .arr bs => as.length == bs.length && pyEqList as bs
    | .obj as, .obj bs => as.length == bs.length && pyEqSub as bs
    | _, _ => false

/-- Element-wise Python `==` of two lists (only consulted after the length
check, so the uneven cases are never reached with `true`). -/
def pyEqList : List JValue → List JValue → Bool
  | [], _ => true
  | _ :: _, [] => false
  | a :: as, b :: bs => pyEq a b && pyEqList as bs

/-- Every key of the first dict is present in the second with a Python-equal
value. -/
def pyEqSub : List (String × JValue) → List (String × JValue) → Bool
  | [], _ => true
  | kv :: rest, bs =>
    (match jLookup kv.1 bs with
     | some v2 => pyEq kv.2 v2
     | none => false) && pyEqSub rest bs

end

/-- Python truthiness (`bool(x)`): `None`, `False`, zero, and empty
containers/strings are falsy; everything else is truthy. -/
def pyTruthy : JValue → Bool
  | .null => false
  | .bool b => b
  | .int n => !(n == 0)
  | .float q => !(q == 0)
  | .str s => !s.isEmpty
  | .arr xs => !xs.isEmpty
  | .obj fs => !fs.isEmpty

/-- Python `x in c` for a JSON container `c`.  Dict: key containment
(non-string scalars are hashable and simply absent from string-keyed JSON
dicts; unhashable lists/dicts raise `TypeError`).  List: element
containment under Python `==`.  String: substring test, requiring `x` to be
a string.  Scalars are not containers: `TypeError`. -/
def pyMem (x c : JValue) : Except Unit Bool :=
  match c with
  | .obj fs =>
    match x with
    | .str s => .ok (jLookup s fs).isSome
    | .arr _ => .error ()
    | .obj _ => .error ()
    | _ => .ok false
  | .arr xs => .ok (xs.any (fun y => pyEq x y))
  | .str s =>
    match x with
    | .str t => .ok (strIn t s)
    | _ => .error ()
  | _ => .error ()

/-- Python `c[k]` for a string key `k`: dict lookup (`KeyError` when the
key is absent); every non-dict raises `TypeError` on a string index. -/
def pyGet (k : String) : JValue → Except Unit JValue
  | .obj fs =>
    match jLookup k fs with
    | some v => .ok v
    | none => .error ()
  | _ => .error ()

/-- Item assignment on an association list: overwrite the entry in place
when the key exists, append otherwise (Python dicts keep insertion order
and keep the position of an updated key). -/
def setKey (fs : List (String × JValue)) (k : String) (v : JValue) :
    List (String × JValue) :=
  if (jLookup k fs).isSome then
    fs.map (fun p => if p.1 = k then (k, v) else p)
  else
    fs ++ [(k, v)]

/-- Python `c[k] = v`: only dicts support string-keyed item assignment. -/
def pySet (k : String) (v : JValue) : JValue → Except Unit JValue
  | .obj fs => .ok (.obj (setKey fs k v))
  | _ => .error ()

/-- Python `d.get(k, default)`: only dicts have `.get`
(`AttributeError` otherwise). -/
def pyDictGet (d : JValue) (k : String) (dflt : JValue) : Except Unit JValue :=
  match d with
  | .obj fs =>
    match jLookup k fs with
    | some v => .ok v
    | none => .ok dflt
  | _ => .error ()

/-- Python `len(x)`: defined for strings, lists and dicts; `TypeError`
otherwise. -/
def pyLen : JValue → Except Unit Nat
  | .str s => .ok s.length
  | .arr xs => .ok xs.length
  | .obj fs => .ok fs.length
  | _ => .error ()

/-- Python `acc.extend(v)`: extends with the elements of an iterable —
list elements, string characters (as one-character strings), dict keys.
Non-iterables raise `TypeError` before anything is appended. -/
def pyExtend (acc : List JValue) : JValue → Except Unit (List JValue)
  | .arr xs => .ok (acc ++ xs)
  | .str s => .ok (acc ++ s.data.map (fun c => .str (String.singleton c)))
  | .obj fs => .ok (acc ++ fs.map (fun p => .str p.1))
  | _ => .error ()

/-- The single-quote character, built from its code point (39). -/
def sq : String := String.singleton (Char.ofNat 39)

/-- The double-quote character, built from its code point (34). -/
def dq : String := String.singleton (Char.ofNat 34)

/-- Rendering of a Python float.  Integral floats render as `n.0` like
Python; for non-integral rationals we render `num/den`, a placeholder that
differs from CPython's decimal float repr — the only floats in this program
are the default `audioChannels` entries 5.1 and 7.1, which no checked
message or claim ever renders. -/
def floatStr (q : ℚ) : String :=
  if q.den = 1 then toString q.num ++ ".0"
  else toString q.num ++ "/" ++ toString q.den

mutual

/-- Python `repr()` of a JSON value (string quoting of embedded quote
characters elided; no claim renders such a string). -/
def pyRepr : JValue → String
  | .null => "None"
  | .bool true => "True"
  | .bool false => "False"
  | .int m => toString m
  | .float q => floatStr q
  | .str s => sq ++ s ++ sq
  | .arr xs => "[" ++ String.intercalate ", " (pyReprList xs) ++ "]"
  | .obj fs => "\x7b" ++ String.intercalate ", " (pyReprFields fs) ++ "\x7d"

/-- The `repr`s of the elements of a Python list. -/
def pyReprList : List JValue → List String
  | [] => []
  | x :: xs => pyRepr x :: pyReprList xs

/-- The rendered `key: value` entries of a Python dict. -/
def pyReprFields : List (String × JValue) → List String
  | [] => []
  | p :: fs => (sq ++ p.1 ++ sq ++ ": " ++ pyRepr p.2) :: pyReprFields fs

end

/-- Python `str()` of a JSON value: bare content for strings, `repr`
otherwise (and `str` = `repr` on containers, whose elements use `repr`). -/
def pyStr : JValue → String
  | .str s => s
  | v => pyRepr v

/-- JSON string escaping of a character: backslash and double quote are
escaped; other characters pass through (control-character escapes elided;
the dumped text only feeds the opaque collaborator prompt). -/
def jsonEsc (c : Char) : String :=
  if c == Char.ofNat 34 then "\\" ++ dq
  else if c == '\\' then "\\\\"
  else String.singleton c

/-- A JSON string literal. -/
def jsonQuote (s : String) : String :=
  dq ++ String.join (s.data.map jsonEsc) ++ dq

mutual

/-- Python `json.dumps(v, indent=2)`: the first argument is the current
indentation of the surrounding container. -/
def dumpsAux : String → JValue → String
  | _, .null => "null"
  | _, .bool true => "true"
  | _, .bool false => "false"
  | _, .int m => toString m
  | _, .float q => floatStr q
  | _, .str s => jsonQuote s
  | _, .arr [] => "[]"
  | ind, .arr xs =>
    "[\n" ++ String.intercalate ",\n" (dumpsList (ind ++ "  ") xs) ++
      "\n" ++ ind ++ "]"
  | _, .obj [] => "\x7b\x7d"
  | ind, .obj fs =>
    "\x7b\n" ++ String.intercalate ",\n" (dumpsFields (ind ++ "  ") fs) ++
      "\n" ++ ind ++ "\x7d"

/-- The dumped lines of the elements of a list, each at indentation
`ind`. -/
def dumpsList : String → List JValue → List String
  | _, [] => []
  | ind, x :: xs => (ind ++ dumpsAux ind x) :: dumpsList ind xs

/-- The dumped `"key": value` lines of a dict, each at indentation
`ind`. -/
def dumpsFields : String → List (String × JValue) → List String
  | _, [] => []
  | ind, p :: fs =>
    (ind ++ jsonQuote p.1 ++ ": " ++ dumpsAux ind p.2) :: dumpsFields ind fs

end

/-- Python `json.dumps(v, indent=2)` at top level. -/
def dumps (v : JValue) : String := dumpsAux "" v

/-! ## Default rules and the rules merge (`_load_rules`) -/

/-- Default `technical` section of `default_rules` in `_load_rules`. -/
def defaultTechnical : List (String × JValue) :=
  [("resolution", .arr [.str "1920x1080", .str "3840x2160", .str "4096x2160"]),
   ("frameRate", .arr [.int 24, .int 25, .int 30, .int 60]),
   ("colorSpace", .arr [.str "Rec.709", .str "Rec.2020", .str "DCI-P3"]),
   ("audioChannels", .arr [.int 2, .float (mkRat 51 10), .float (mkRat 71 10)]),
   ("audioSampleRate", .arr [.int 48000, .int 96000])]

/-- Default `composition` section of `default_rules`. -/
def defaultComposition : List (String × JValue) :=
  [("enforceRuleOfThirds", .bool true),
   ("enforceHeadroom", .bool true),
   ("enforceLeadingSpace", .bool true)]

/-- Default `continuity` section of `default_rules`. -/
def defaultContinuity : List (String × JValue) :=
  [("checkProps", .bool true),
   ("checkWardrobe", .bool true),
   ("checkLighting", .bool true),
   ("checkTimeOfDay", .bool true)]

/-- The hardcoded `default_rules` of `_load_rules`, as the (section name,
section keys) list it is iterated as. -/
def defaultRules : List (String × List (String × JValue)) :=
  [("technical", defaultTechnical),
   ("composition", defaultComposition),
   ("continuity", defaultContinuity)]

/-- The hardcoded default ruleset as a JSON value. -/
def defaultRulesJ : JValue :=
  .obj (defaultRules.map (fun p => (p.1, .obj p.2)))

/-- Inner loop of the merge in `_load_rules`:
`for key in default_rules[section]: if key not in custom_rules[section]:
custom_rules[section][key] = default_rules[section][key]`.
In-place mutation of the section dict is modelled by re-reading the section
from `custom`, assigning into it, and writing it back. -/
def mergeSectionKeys (dkeys : List (String × JValue)) (sname : String)
    (custom : JValue) : Except Unit JValue :=
  match dkeys with
  | [] => .ok custom
  | (k, dv) :: rest =>
    match pyGet sname custom with
    | .error e => .error e
    | .ok sec =>
      match pyMem (.str k) sec with
      | .error e => .error e
      | .ok true => mergeSectionKeys rest sname custom
      | .ok false =>
        match pySet k dv sec with
        | .error e => .error e
        | .ok sec2 =>
          match pySet sname sec2 custom with
          | .error e => .error e
          | .ok custom2 => mergeSectionKeys rest sname custom2

/-- Outer loop of the merge in `_load_rules`:
`for section in default_rules: if section in custom_rules: ⟨fill keys⟩
else: custom_rules[section] = default_rules[section]`. -/
def mergeSections (secs : List (String × List (String × JValue)))
    (custom : JValue) : Except Unit JValue :=
  match secs with
  | [] => .ok custom
  | (s, dsec) :: rest =>
    match pyMem (.str s) custom with
    | .error e => .error e
    | .ok true =>
      match mergeSectionKeys dsec s custom with
      | .error e => .error e
      | .ok custom2 => mergeSections rest custom2
    | .ok false =>
      match pySet s (.obj dsec) custom with
      | .error e => .error e
      | .ok custom2 => mergeSections rest custom2

/-- The `_load_rules` method.  `none`: no rules path given.
`some none`: opening or JSON-parsing the rules file raised (caught by the
surrounding `try`, falling back to the defaults).  `some (some custom)`:
the file parsed to `custom`; the merge loop runs inside the same `try`, so
a merge exception also falls back to the defaults. -/
def load_rules : Option (Option JValue) → JValue
  | none => defaultRulesJ
  | some none => defaultRulesJ
  | some (some custom) =>
    match mergeSections defaultRules custom with
    | .ok merged => merged
    | .error _ => defaultRulesJ

/-! ## `validate_scene_json` -/

/-- Result dictionary of `validate_scene_json`.  The continuity check can
`extend` the error/warning lists with arbitrary JSON values from the
collaborator response, so entries are `JValue`s (the validator itself only
ever appends strings). -/
structure VResult where
  valid : Bool
  errors : List JValue
  warnings : List JValue

/-- The `required_fields` list of `validate_scene_json`. -/
def requiredFields : List String :=
  ["sceneName", "sceneNumber", "location", "timeOfDay", "characters", "props"]

/-- The list comprehension
`[field for field in required_fields if field not in scene_data]`. -/
def missingFields (fields : List String) (scene : JValue) :
    Except Unit (List String) :=
  match fields with
  | [] => .ok []
  | f :: rest =>
    match pyMem (.str f) scene with
    | .error e => .error e
    | .ok true => missingFields rest scene
    | .ok false =>
      match missingFields rest scene with
      | .error e => .error e
      | .ok ms => .ok (f :: ms)

/-- The error message of the early return for missing required fields:
`f"Missing required fields: {', '.join(missing_fields)}"`. -/
def missingMsg (missing : List String) : String :=
  "Missing required fields: " ++ String.intercalate ", " missing

/-- The technical error message
`f"Invalid {label}: {value}. Must be one of {allowed}"` (the f-string
interpolates with `str()`). -/
def techMsg (label : String) (v allowed : JValue) : String :=
  "Invalid " ++ label ++ ": " ++ pyStr v ++ ". Must be one of " ++ pyStr allowed

/-- One technical field check:
`if fname in tech and tech[fname] not in tech_rules[fname]:
errors.append(...)`, with Python's left-to-right short-circuit
evaluation. -/
def techCheck (fname label : String) (tech trules : JValue)
    (errors : List JValue) : Except Unit (List JValue) :=
  match pyMem (.str fname) tech with
  | .error e => .error e
  | .ok false => .ok errors
  | .ok true =>
    match pyGet fname tech with
    | .error e => .error e
    | .ok v =>
      match pyGet fname trules with
      | .error e => .error e
      | .ok allowed =>
        match pyMem v allowed with
        | .error e => .error e
        | .ok true => .ok errors
        | .ok false => .ok (errors ++ [.str (techMsg label v allowed)])

/-- The `if "technical" in scene_data:` block: fetch `tech` and
`tech_rules`, then run the three field checks in order. -/
def technicalPhase (rules scene : JValue) (errors : List JValue) :
    Except Unit (List JValue) :=
  match pyMem (.str "technical") scene with
  | .error e => .error e
  | .ok false => .ok errors
  | .ok true =>
    match pyGet "technical" scene with
    | .error e => .error e
    | .ok tech =>
      match pyGet "technical" rules with
      | .error e => .error e
      | .ok trules =>
        match techCheck "resolution" "resolution" tech trules errors with
        | .error e => .error e
        | .ok e1 =>
          match techCheck "frameRate" "frame rate" tech trules e1 with
          | .error e => .error e
          | .ok e2 => techCheck "colorSpace" "color space" tech trules e2

/-- The rule-of-thirds warning text. -/
def rotWarning : String := "Scene does not follow rule of thirds"

/-- The composition block:
`if "composition" in scene_data and self.rules["composition"]["enforceRuleOfThirds"]:`
then `if "ruleOfThirds" in comp and not comp["ruleOfThirds"]:
warnings.append(...)`, with short-circuit evaluation (the rules are only
consulted when the scene carries a composition block). -/
def compositionPhase (rules scene : JValue) (warnings : List JValue) :
    Except Unit (List JValue) :=
  match pyMem (.str "composition") scene with
  | .error e => .error e
  | .ok false => .ok warnings
  | .ok true =>
    match pyGet "composition" rules with
    | .error e => .error e
    | .ok crules =>
      match pyGet "enforceRuleOfThirds" crules with
      | .error e => .error e
      | .ok flag =>
        if pyTruthy flag then
          match pyGet "composition" scene with
          | .error e => .error e
          | .ok comp =>
            match pyMem (.str "ruleOfThirds") comp with
            | .error e => .error e
            | .ok false => .ok warnings
            | .ok true =>
              match pyGet "ruleOfThirds" comp with
              | .error e => .error e
              | .ok v =>
                .ok (if pyTruthy v then warnings
                     else warnings ++ [.str rotWarning])
        else .ok warnings

/-- The continuity gate:
`self.rules["continuity"]["checkProps"] and
len(scene_data.get("previousScenes", [])) > 0`, with short-circuit
evaluation. -/
def contGate (rules scene : JValue) : Except Unit Bool :=
  match pyGet "continuity" rules with
  | .error e => .error e
  | .ok cont =>
    match pyGet "checkProps" cont with
    | .error e => .error e
    | .ok cp =>
      if pyTruthy cp then
        match pyDictGet scene "previousScenes" (.arr []) with
        | .error e => .error e
        | .ok prev =>
          match pyLen prev with
          | .error e => .error e
          | .ok n => .ok (decide (0 < n))
      else .ok false

/-- The continuity prompt (triple-quoted f-string of the source, with
`json.dumps(..., indent=2)` of the scene and of
`scene_data.get('previousScenes', [])`). -/
def continuityPrompt (scene prev : JValue) : String :=
  "\n            Analyze continuity between this scene and previous scenes.\n            \n            Current scene: " ++
    dumps scene ++
    "\n            \n            Previous scenes: " ++
    dumps prev ++
    "\n            \n            Check for continuity errors in props, wardrobe, lighting, and time of day.\n            Return a JSON object with these fields:\n            - continuityErrors: array of specific continuity errors found\n            - continuityWarnings: array of potential continuity issues that should be reviewed\n            "

/-- The generic warning appended when the continuity `try` block raises. -/
def contFailWarning : String := "Could not perform automated continuity check"

/-- Processing of a parsed collaborator response inside the `try` block:
`if "continuityErrors" in analysis and analysis["continuityErrors"]:
errors.extend(...)` and likewise for warnings.  Returns the error delta,
the warning delta, and whether an exception was raised (a raise keeps the
deltas appended before it, since `extend` mutates in place). -/
def contApply (analysis : JValue) : List JValue × List JValue × Bool :=
  match pyMem (.str "continuityErrors") analysis with
  | .error _ => ([], [], true)
  | .ok hasE =>
    let step1 : Except Unit (List JValue) :=
      if hasE then
        match pyGet "continuityErrors" analysis with
        | .error e => .error e
        | .ok v => if pyTruthy v then pyExtend [] v else .ok []
      else .ok []
    match step1 with
    | .error _ => ([], [], true)
    | .ok des =>
      match pyMem (.str "continuityWarnings") analysis with
      | .error _ => (des, [], true)
      | .ok hasW =>
        let step2 : Except Unit (List JValue) :=
          if hasW then
            match pyGet "continuityWarnings" analysis with
            | .error e => .error e
            | .ok v => if pyTruthy v then pyExtend [] v else .ok []
          else .ok []
        match step2 with
        | .error _ => (des, [], true)
        | .ok dws => (des, dws, false)

/-- The continuity block of `validate_scene_json`.  The collaborator
(`self.model.generate_content` followed by `json.loads(response.text)`) is
abstracted as `gen : String → Option JValue`: `none` means the call or the
parse raised, `some analysis` the parsed response.  Any raise inside the
`try` appends the single generic warning. -/
def continuityPhase (rules : JValue) (gen : String → Option JValue)
    (scene : JValue) (errors warnings : List JValue) :
    Except Unit (List JValue × List JValue) :=
  match contGate rules scene with
  | .error e => .error e
  | .ok false => .ok (errors, warnings)
  | .ok true =>
    match pyDictGet scene "previousScenes" (.arr []) with
    | .error e => .error e
    | .ok prev =>
      match gen (continuityPrompt scene prev) with
      | none => .ok (errors, warnings ++ [.str contFailWarning])
      | some analysis =>
        match contApply analysis with
        | (des, dws, raised) =>
          .ok (errors ++ des,
               (warnings ++ dws) ++
                 (if raised then [.str contFailWarning] else []))

/-- The `validate_scene_json` method: required-field early return, then
technical, composition and continuity checks, then
`valid = (len(errors) == 0)`. -/
def validate_scene_json (rules : JValue) (gen : String → Option JValue)
    (scene : JValue) : Except Unit VResult :=
  match missingFields requiredFields scene with
  | .error e => .error e
  | .ok missing =>
    if !missing.isEmpty then
      .ok ⟨false, [.str (missingMsg missing)], []⟩
    else
      match technicalPhase rules scene [] with
      | .error e => .error e
      | .ok errors1 =>
        match compositionPhase rules scene [] with
        | .error e => .error e
        | .ok warnings1 =>
          match continuityPhase rules gen scene errors1 warnings1 with
          | .error e => .error e
          | .ok (errors2, warnings2) =>
            .ok ⟨errors2.isEmpty, errors2, warnings2⟩

/-! ## `generate_report` -/

/-- The `report_lines` list built by `generate_report` (title, blank line,
pass/fail status, blank line, then the optional Errors and Warnings
sections, each with one `- ` bullet per entry and a trailing blank
line). -/
def reportLines (r : VResult) : List String :=
  ["# Scene Validation Report", ""] ++
    [if r.valid then "## ✅ Scene is valid" else "## ❌ Scene is invalid"] ++
    [""] ++
    (if r.errors.isEmpty then []
     else "## Errors" :: r.errors.map (fun e => "- " ++ pyStr e) ++ [""]) ++
    (if r.warnings.isEmpty then []
     else "## Warnings" :: r.warnings.map (fun w => "- " ++ pyStr w) ++ [""])

/-- The `generate_report` method.  `writeOutcome` models the optional
output file write: `none` = no output path, `some b` = a write that
succeeded or failed; the failing write is caught and only logged, so the
returned text never depends on it. -/
def generate_report (r : VResult) (writeOutcome : Option Bool) : String :=
  match writeOutcome with
  | _ => String.intercalate "\n" (reportLines r)

/-! ## Auxiliary definitions for the verification -/

/-- Whether a JSON value is a dict. -/
def isObjB : JValue → Bool
  | .obj _ => true
  | _ => false

/-- Model of the inner merge loop on the fields of one section: each
default key absent from the section is appended in default order. -/
def fillSec (sfs : List (String × JValue)) :
    List (String × JValue) → List (String × JValue)
  | [] => sfs
  | (k, dv) :: rest =>
    if (jLookup k sfs).isSome then fillSec sfs rest
    else fillSec (sfs ++ [(k, dv)]) rest

/-- Model of the whole merge loop over an object custom ruleset (the
`some _` non-dict branch is where the real merge raises; its value is
irrelevant and never exposed). -/
def mergeModel : List (String × List (String × JValue)) →
    List (String × JValue) → List (String × JValue)
  | [], fs => fs
  | (s, dsec) :: rest, fs =>
    match jLookup s fs with
    | some (.obj sfs) => mergeModel rest (setKey fs s (.obj (fillSec sfs dsec)))
    | some _ => fs
    | none => mergeModel rest (fs ++ [(s, .obj dsec)])

/-- Decidable form of the C2 side condition: every section of the custom
ruleset that shares its name with a default section is itself a dict. -/
def sharedSectionsAreObjs (fs : List (String × JValue)) : Bool :=
  (defaultRules.map Prod.fst).all (fun s =>
    match jLookup s fs with
    | some v => isObjB v
    | none => true)

/-- A collaborator that always raises (or always returns an unparseable
response). -/
def genNone : String → Option JValue := fun _ => none

/-- A collaborator whose response parses to a dict that carries neither
`continuityErrors` nor `continuityWarnings`. -/
def genEmptyObj : String → Option JValue := fun _ => some (.obj [])

/-- The default allowed resolutions, as the JSON value stored in the
default ruleset. -/
def resAllowed : JValue :=
  .arr [.str "1920x1080", .str "3840x2160", .str "4096x2160"]

/-- The example scene of the spec: valid required fields and an invalid
720x480 resolution. -/
def sceneC4 : JValue := .obj
  [("sceneName", .str "S1"), ("sceneNumber", .int 1),
   ("location", .str "Loft"), ("timeOfDay", .str "Day"),
   ("characters", .arr [.str "A"]), ("props", .arr []),
   ("technical", .obj [("resolution", .str "720x480")])]

/-- A scene missing five of the six required fields, with other content
that would trigger a technical error if it were checked. -/
def sceneMissing : JValue := .obj
  [("sceneName", .str "S1"),
   ("technical", .obj [("resolution", .str "720x480")])]

/-- A complete scene whose composition block sets `ruleOfThirds` to the
boolean `false`. -/
def sceneRotFalse : JValue := .obj
  [("sceneName", .str "S1"), ("sceneNumber", .int 1),
   ("location", .str "Loft"), ("timeOfDay", .str "Day"),
   ("characters", .arr [.str "A"]), ("props", .arr []),
   ("composition", .obj [("ruleOfThirds", .bool false)])]

/-- A complete scene whose composition block sets `ruleOfThirds` to the
falsy non-boolean `0`. -/
def sceneRotZero : JValue := .obj
  [("sceneName", .str "S1"), ("sceneNumber", .int 1),
   ("location", .str "Loft"), ("timeOfDay", .str "Day"),
   ("characters", .arr [.str "A"]), ("props", .arr []),
   ("composition", .obj [("ruleOfThirds", .int 0)])]

/-- A complete scene with a non-empty `previousScenes` list, which
triggers the continuity check under the default rules. -/
def scenePrev : JValue := .obj
  [("sceneName", .str "S1"), ("sceneNumber", .int 1),
   ("location", .str "Loft"), ("timeOfDay", .str "Day"),
   ("characters", .arr [.str "A"]), ("props", .arr []),
   ("previousScenes", .arr [.str "s0"])]

/-- A custom partial ruleset used as a concrete merge input: it overrides
the allowed resolutions, adds an unknown key to a known section, and adds
an unknown section. -/
def customRules : List (String × JValue) :=
  [("technical", .obj [("resolution", .arr [.str "640x480"]),
                       ("extraKey", .int 5)]),
   ("extraSection", .str "zzz")]

/-! ## Association-list lemmas -/

theorem jLookup_append_some {k : String} {xs ys : List (String × JValue)}
    {v : JValue} (h : jLookup k xs = some v) :
    jLookup k (xs ++ ys) = some v := by
  induction xs with
  | nil => simp [jLookup] at h
  | cons p rest ih =>
    simp only [jLookup, List.cons_append] at h ⊢
    by_cases hk : p.1 = k
    · rw [if_pos hk] at h ⊢
      exact h
    · rw [if_neg hk] at h ⊢
      exact ih h

theorem jLookup_append_none {k : String} {xs ys : List (String × JValue)}
    (h : jLookup k xs = none) :
    jLookup k (xs ++ ys) = jLookup k ys := by
  induction xs with
  | nil => simp [jLookup]
  | cons p rest ih =>
    simp only [jLookup, List.cons_append] at h ⊢
    by_cases hk : p.1 = k
    · rw [if_pos hk] at h
      exact absurd h (by simp)
    · rw [if_neg hk] at h ⊢
      exact ih h

theorem jLookup_eq_none_iff {k : String} {xs : List (String × JValue)} :
    jLookup k xs = none ↔ ∀ p ∈ xs, p.1 ≠ k := by
  induction xs with
  | nil => simp [jLookup]
  | cons p rest ih =>
    simp only [jLookup, List.mem_cons]
    by_cases hk : p.1 = k
    · rw [if_pos hk]
      simp only [reduceCtorEq, false_iff]
      push_neg
      exact ⟨p, Or.inl rfl, hk⟩
    · rw [if_neg hk]
      rw [ih]
      constructor
      · intro h q hq
        rcases hq with rfl | hq
        · exact hk
        · exact h q hq
      · intro h q hq
        exact h q (Or.inr hq)

theorem mapSet_lookup_self {fs : List (String × JValue)} {k : String}
    {v : JValue} (h : (jLookup k fs).isSome) :
    jLookup k (fs.map (fun p => if p.1 = k then (k, v) else p)) = some v := by
  induction fs with
  | nil => simp [jLookup] at h
  | cons p rest ih =>
    by_cases hk : p.1 = k
    · simp [jLookup, hk]
    · simp only [jLookup, if_neg hk] at h
      simp only [List.map_cons, if_neg hk, jLookup, if_neg hk]
      exact ih h

theorem mapSet_lookup_ne {fs : List (String × JValue)} {k k' : String}
    {v : JValue} (h : k' ≠ k) :
    jLookup k' (fs.map (fun p => if p.1 = k then (k, v) else p)) =
      jLookup k' fs := by
  induction fs with
  | nil => simp [jLookup]
  | cons p rest ih =>
    by_cases hk : p.1 = k
    · have hkk' : k ≠ k' := fun hx => h hx.symm
      have hpk' : p.1 ≠ k' := by rw [hk]; exact hkk'
      simp only [List.map_cons, if_pos hk, jLookup, if_neg hkk', if_neg hpk']
      exact ih
    · simp only [List.map_cons, if_neg hk, jLookup]
      by_cases hk' : p.1 = k'
      · rw [if_pos hk', if_pos hk']
      · rw [if_neg hk', if_neg hk']
        exact ih

theorem mapSet_keys {fs : List (String × JValue)} {k : String} {v : JValue} :
    (fs.map (fun p => if p.1 = k then (k, v) else p)).map Prod.fst =
      fs.map Prod.fst := by
  induction fs with
  | nil => simp
  | cons p rest ih =>
    by_cases hk : p.1 = k
    · simp [hk, ih]
    · simp only [List.map_cons, if_neg hk, ih]

theorem setKey_isSome {fs : List (String × JValue)} {k : String} {v : JValue}
    (h : (jLookup k fs).isSome) :
    setKey fs k v = fs.map (fun p => if p.1 = k then (k, v) else p) := by
  unfold setKey
  rw [if_pos h]

theorem setKey_of_none {fs : List (String × JValue)} {k : String}
    {v : JValue} (h : jLookup k fs = none) :
    setKey fs k v = fs ++ [(k, v)] := by
  unfold setKey
  rw [if_neg (by simp [h])]

theorem jLookup_setKey_self {fs : List (String × JValue)} {k : String}
    {v : JValue} : jLookup k (setKey fs k v) = some v := by
  by_cases h : (jLookup k fs).isSome
  · rw [setKey_isSome h]
    exact mapSet_lookup_self h
  · rw [setKey_of_none (Option.not_isSome_iff_eq_none.mp h),
      jLookup_append_none (Option.not_isSome_iff_eq_none.mp h)]
    simp [jLookup]

theorem jLookup_setKey_ne {fs : List (String × JValue)} {k k' : String}
    {v : JValue} (h : k' ≠ k) :
    jLookup k' (setKey fs k v) = jLookup k' fs := by
  by_cases hs : (jLookup k fs).isSome
  · rw [setKey_isSome hs]
    exact mapSet_lookup_ne h
  · rw [setKey_of_none (Option.not_isSome_iff_eq_none.mp hs)]
    cases hl : jLookup k' fs with
    | some w => exact jLookup_append_some hl
    | none =>
      rw [jLookup_append_none hl]
      simp only [jLookup]
      rw [if_neg (fun hx : k = k' => h hx.symm)]

theorem keys_setKey_of_isSome {fs : List (String × JValue)} {k : String}
    {v : JValue} (h : (jLookup k fs).isSome) :
    (setKey fs k v).map Prod.fst = fs.map Prod.fst := by
  rw [setKey_isSome h]
  exact mapSet_keys

theorem setKey_setKey {fs : List (String × JValue)} {k : String}
    {v₁ v₂ : JValue} :
    setKey (setKey fs k v₁) k v₂ = setKey fs k v₂ := by
  have h1 : (jLookup k (setKey fs k v₁)).isSome := by
    rw [jLookup_setKey_self]; rfl
  by_cases h : (jLookup k fs).isSome
  · rw [setKey_isSome h1, setKey_isSome h, setKey_isSome h, List.map_map]
    apply List.map_congr_left
    intro p _
    by_cases hk : p.1 = k <;> simp [hk]
  · have hn : jLookup k fs = none := Option.not_isSome_iff_eq_none.mp h
    rw [setKey_isSome h1, setKey_of_none hn, setKey_of_none hn,
      List.map_append]
    congr 1
    · apply (List.map_congr_left ?_).trans (List.map_id fs)
      intro p hp
      rw [if_neg ((jLookup_eq_none_iff.mp hn) p hp)]
      rfl
    · simp

theorem setKey_self {fs : List (String × JValue)} {k : String} {v : JValue}
    (hnd : (fs.map Prod.fst).Nodup) (h : jLookup k fs = some v) :
    setKey fs k v = fs := by
  rw [setKey_isSome (by simp [h])]
  induction fs with
  | nil => simp
  | cons p rest ih =>
    simp only [jLookup] at h
    simp only [List.map_cons, List.nodup_cons] at hnd
    by_cases hk : p.1 = k
    · rw [if_pos hk] at h
      simp only [List.map_cons, if_pos hk]
      have hp : (k, v) = p := by
        obtain ⟨p1, p2⟩ := p
        simp only at hk
        simp only [Option.some.injEq] at h
        simp [hk, h]
      rw [hp]
      have hrest : ∀ q ∈ rest, q.1 ≠ k := by
        intro q hq hqk
        apply hnd.1
        rw [hk, ← hqk]
        exact List.mem_map_of_mem Prod.fst hq
      simp only [List.cons.injEq, true_and]
      apply (List.map_congr_left ?_).trans (List.map_id rest)
      intro q hq
      rw [if_neg (hrest q hq)]
      rfl
    · rw [if_neg hk] at h
      simp only [List.map_cons, if_neg hk]
      rw [ih hnd.2 h]

theorem jLookup_append_one_ne {fs : List (String × JValue)} {s s0 : String}
    {v : JValue} (h : s ≠ s0) :
    jLookup s (fs ++ [(s0, v)]) = jLookup s fs := by
  cases hl : jLookup s fs with
  | some w => exact jLookup_append_some hl
  | none =>
    rw [jLookup_append_none hl]
    simp only [jLookup]
    rw [if_neg (fun hx : s0 = s => h hx.symm)]

/-! ## Characterization of the `_load_rules` merge -/

theorem isObjB_iff {v : JValue} : isObjB v = true ↔ ∃ fs, v = .obj fs := by
  cases v <;> simp [isObjB]

theorem fillSec_lookup_isSome {dsec : List (String × JValue)}
    {sfs : List (String × JValue)} {k : String}
    (h : (jLookup k sfs).isSome) :
    jLookup k (fillSec sfs dsec) = jLookup k sfs := by
  induction dsec generalizing sfs with
  | nil => rfl
  | cons p rest ih =>
    obtain ⟨k0, dv0⟩ := p
    simp only [fillSec]
    by_cases h0 : (jLookup k0 sfs).isSome
    · rw [if_pos h0]
      exact ih h
    · rw [if_neg h0]
      obtain ⟨v, hv⟩ := Option.isSome_iff_exists.mp h
      rw [ih (by simp [jLookup_append_some hv]), jLookup_append_some hv, hv]

theorem fillSec_lookup_some {dsec : List (String × JValue)}
    {sfs : List (String × JValue)} {k : String} {cv : JValue}
    (h : jLookup k sfs = some cv) :
    jLookup k (fillSec sfs dsec) = some cv := by
  rw [fillSec_lookup_isSome (by simp [h]), h]

theorem fillSec_lookup_none {dsec : List (String × JValue)}
    {sfs : List (String × JValue)} {k : String} {dv : JValue}
    (hnd : (dsec.map Prod.fst).Nodup) (hmem : (k, dv) ∈ dsec)
    (h : jLookup k sfs = none) :
    jLookup k (fillSec sfs dsec) = some dv := by
  induction dsec generalizing sfs with
  | nil => simp at hmem
  | cons p rest ih =>
    obtain ⟨k0, dv0⟩ := p
    simp only [List.map_cons, List.nodup_cons] at hnd
    rcases List.mem_cons.mp hmem with heq | hmem'
    · injection heq with h1 h2
      subst h1
      subst h2
      simp only [fillSec]
      rw [if_neg (by simp [h])]
      have hk' : jLookup k (sfs ++ [(k, dv)]) = some dv := by
        rw [jLookup_append_none h]
        simp [jLookup]
      exact fillSec_lookup_some hk'
    · have hk0 : k ≠ k0 := by
        intro hx
        apply hnd.1
        rw [← hx]
        exact List.mem_map_of_mem Prod.fst hmem'
      simp only [fillSec]
      by_cases h0 : (jLookup k0 sfs).isSome
      · rw [if_pos h0]
        exact ih hnd.2 hmem' h
      · rw [if_neg h0]
        exact ih hnd.2 hmem' (by rw [jLookup_append_one_ne hk0]; exact h)

theorem fillSec_lookup_out {dsec : List (String × JValue)}
    {sfs : List (String × JValue)} {k : String}
    (h : k ∉ dsec.map Prod.fst) :
    jLookup k (fillSec sfs dsec) = jLookup k sfs := by
  induction dsec generalizing sfs with
  | nil => rfl
  | cons p rest ih =>
    obtain ⟨k0, dv0⟩ := p
    simp only [List.map_cons, List.mem_cons, not_or] at h
    simp only [fillSec]
    by_cases h0 : (jLookup k0 sfs).isSome
    · rw [if_pos h0]
      exact ih h.2
    · rw [if_neg h0]
      rw [ih h.2, jLookup_append_one_ne h.1]

theorem mergeSectionKeys_obj {dsec : List (String × JValue)} {s : String}
    {fs sfs : List (String × JValue)}
    (hnd : (fs.map Prod.fst).Nodup) (h : jLookup s fs = some (.obj sfs)) :
    mergeSectionKeys dsec s (.obj fs) =
      .ok (.obj (setKey fs s (.obj (fillSec sfs dsec)))) := by
  induction dsec generalizing fs sfs with
  | nil =>
    simp only [mergeSectionKeys, fillSec]
    rw [setKey_self hnd h]
  | cons p rest ih =>
    obtain ⟨k, dv⟩ := p
    simp only [mergeSectionKeys, pyGet, h, pyMem]
    by_cases hk : (jLookup k sfs).isSome
    · rw [hk]
      simp only [fillSec, if_pos hk]
      exact ih hnd h
    · have hkf : (jLookup k sfs).isSome = false := by simpa using hk
      rw [hkf]
      simp only [pySet, setKey_of_none (Option.not_isSome_iff_eq_none.mp hk)]
      have h' : jLookup s (setKey fs s (.obj (sfs ++ [(k, dv)]))) =
          some (.obj (sfs ++ [(k, dv)])) := jLookup_setKey_self
      have hnd' : ((setKey fs s (.obj (sfs ++ [(k, dv)]))).map Prod.fst).Nodup := by
        rw [keys_setKey_of_isSome (by simp [h])]
        exact hnd
      rw [ih hnd' h']
      simp only [fillSec, if_neg hk, setKey_setKey]

theorem mergeSections_obj {secs : List (String × List (String × JValue))}
    {fs : List (String × JValue)}
    (hnd : (fs.map Prod.fst).Nodup)
    (hobj : ∀ s, s ∈ secs.map Prod.fst → ∀ v, jLookup s fs = some v →
      isObjB v = true) :
    mergeSections secs (.obj fs) = .ok (.obj (mergeModel secs fs)) := by
  induction secs generalizing fs with
  | nil => rfl
  | cons p rest ih =>
    obtain ⟨s, dsec⟩ := p
    simp only [mergeSections, pyMem, mergeModel]
    cases hy : jLookup s fs with
    | some v =>
      have hv : isObjB v = true :=
        hobj s (by simp) v hy
      obtain ⟨sfs, rfl⟩ := isObjB_iff.mp hv
      simp only [hy, Option.isSome_some]
      rw [mergeSectionKeys_obj hnd hy]
      have hnd' : ((setKey fs s (.obj (fillSec sfs dsec))).map Prod.fst).Nodup := by
        rw [keys_setKey_of_isSome (by simp [hy])]
        exact hnd
      have hobj' : ∀ s', s' ∈ rest.map Prod.fst → ∀ v',
          jLookup s' (setKey fs s (.obj (fillSec sfs dsec))) = some v' →
          isObjB v' = true := by
        intro s' hs' v' hv'
        by_cases hss : s' = s
        · subst hss
          rw [jLookup_setKey_self] at hv'
          cases hv'
          rfl
        · rw [jLookup_setKey_ne hss] at hv'
          exact hobj s' (by simp [hs']) v' hv'
      exact ih hnd' hobj'
    | none =>
      simp only [hy, Option.isSome_none]
      have hset : setKey fs s (.obj dsec) = fs ++ [(s, JValue.obj dsec)] :=
        setKey_of_none hy
      simp only [pySet, hset]
      have hnd' : ((fs ++ [(s, JValue.obj dsec)]).map Prod.fst).Nodup := by
        rw [List.map_append]
        simp only [List.map_cons, List.map_nil]
        rw [List.nodup_append]
        refine ⟨hnd, List.nodup_singleton s, ?_⟩
        intro a ha hb
        simp only [List.mem_singleton] at hb
        subst hb
        obtain ⟨q, hq, hq1⟩ := List.mem_map.mp ha
        exact (jLookup_eq_none_iff.mp hy) q hq hq1
      have hobj' : ∀ s', s' ∈ rest.map Prod.fst → ∀ v',
          jLookup s' (fs ++ [(s, JValue.obj dsec)]) = some v' →
          isObjB v' = true := by
        intro s' hs' v' hv'
        by_cases hss : s' = s
        · subst hss
          cases hx : jLookup s' fs with
          | some w =>
            rw [jLookup_append_some hx] at hv'
            cases hv'
            exact hobj s' (by simp [hs']) _ hx
          | none =>
            rw [jLookup_append_none hx] at hv'
            simp only [jLookup, if_pos rfl] at hv'
            cases hv'
            rfl
        · rw [jLookup_append_one_ne hss] at hv'
          exact hobj s' (by simp [hs']) v' hv'
      exact ih hnd' hobj'

theorem mergeModel_isSome {secs : List (String × List (String × JValue))}
    {fs : List (String × JValue)} {s : String}
    (h : (jLookup s fs).isSome) :
    (jLookup s (mergeModel secs fs)).isSome := by
  induction secs generalizing fs with
  | nil => exact h
  | cons p rest ih =>
    obtain ⟨s0, dsec⟩ := p
    simp only [mergeModel]
    cases hy : jLookup s0 fs with
    | some v =>
      cases v with
      | obj sfs =>
        apply ih
        by_cases hss : s = s0
        · subst hss
          rw [jLookup_setKey_self]
          rfl
        · rw [jLookup_setKey_ne hss]
          exact h
      | null => exact h
      | bool b => exact h
      | int n => exact h
      | float q => exact h
      | str t => exact h
      | arr xs => exact h
    | none =>
      apply ih
      obtain ⟨v, hv⟩ := Option.isSome_iff_exists.mp h
      rw [jLookup_append_some hv]
      rfl

theorem mergeModel_lookup_out {secs : List (String × List (String × JValue))}
    {fs : List (String × JValue)} {s : String}
    (h : s ∉ secs.map Prod.fst) :
    jLookup s (mergeModel secs fs) = jLookup s fs := by
  induction secs generalizing fs with
  | nil => rfl
  | cons p rest ih =>
    obtain ⟨s0, dsec⟩ := p
    simp only [List.map_cons, List.mem_cons, not_or] at h
    simp only [mergeModel]
    cases hy : jLookup s0 fs with
    | some v =>
      cases v with
      | obj sfs => rw [ih h.2, jLookup_setKey_ne h.1]
      | null => rfl
      | bool b => rfl
      | int n => rfl
      | float q => rfl
      | str t => rfl
      | arr xs => rfl
    | none => rw [ih h.2, jLookup_append_one_ne h.1]

theorem objHyp_setKey {fs : List (String × JValue)} {s : String}
    {x : List (String × JValue)} {names : List String}
    (hobj : ∀ s', s' ∈ names → ∀ v, jLookup s' fs = some v → isObjB v = true) :
    ∀ s', s' ∈ names → ∀ v,
      jLookup s' (setKey fs s (JValue.obj x)) = some v → isObjB v = true := by
  intro s' hs' v hv
  by_cases hss : s' = s
  · subst hss
    rw [jLookup_setKey_self] at hv
    cases hv
    rfl
  · rw [jLookup_setKey_ne hss] at hv
    exact hobj s' hs' v hv

theorem objHyp_append {fs : List (String × JValue)} {s : String}
    {x : List (String × JValue)} {names : List String}
    (hobj : ∀ s', s' ∈ names → ∀ v, jLookup s' fs = some v → isObjB v = true) :
    ∀ s', s' ∈ names → ∀ v,
      jLookup s' (fs ++ [(s, JValue.obj x)]) = some v → isObjB v = true := by
  intro s' hs' v hv
  by_cases hss : s' = s
  · subst hss
    cases hx : jLookup s' fs with
    | some w =>
      rw [jLookup_append_some hx] at hv
      cases hv
      exact hobj s' hs' _ hx
    | none =>
      rw [jLookup_append_none hx] at hv
      simp only [jLookup, if_pos rfl] at hv
      cases hv
      rfl
  · rw [jLookup_append_one_ne hss] at hv
    exact hobj s' hs' v hv

theorem mergeModel_section_present {secs : List (String × List (String × JValue))}
    {fs : List (String × JValue)} {s : String} {dsec : List (String × JValue)}
    (hobj : ∀ s', s' ∈ secs.map Prod.fst → ∀ v, jLookup s' fs = some v →
      isObjB v = true)
    (hmem : (s, dsec) ∈ secs) :
    (jLookup s (mergeModel secs fs)).isSome := by
  induction secs generalizing fs with
  | nil => simp at hmem
  | cons p rest ih =>
    obtain ⟨s0, dsec0⟩ := p
    cases hy : jLookup s0 fs with
    | some v =>
      have hv : isObjB v = true := hobj s0 (by simp) v hy
      obtain ⟨sfs0, rfl⟩ := isObjB_iff.mp hv
      rw [show mergeModel ((s0, dsec0) :: rest) fs =
          mergeModel rest (setKey fs s0 (.obj (fillSec sfs0 dsec0))) from by
        simp [mergeModel, hy]]
      rcases List.mem_cons.mp hmem with heq | hmem'
      · injection heq with h1 h2
        subst h1
        apply mergeModel_isSome
        rw [jLookup_setKey_self]
        rfl
      · exact ih (objHyp_setKey (fun s' hs' => hobj s' (by simp [hs']))) hmem'
    | none =>
      rw [show mergeModel ((s0, dsec0) :: rest) fs =
          mergeModel rest (fs ++ [(s0, .obj dsec0)]) from by
        simp [mergeModel, hy]]
      rcases List.mem_cons.mp hmem with heq | hmem'
      · injection heq with h1 h2
        subst h1
        apply mergeModel_isSome
        rw [jLookup_append_none hy]
        simp [jLookup]
      · exact ih (objHyp_append (fun s' hs' => hobj s' (by simp [hs']))) hmem'

theorem mergeModel_shared_section {secs : List (String × List (String × JValue))}
    {fs : List (String × JValue)} {s : String} {dsec sfs : List (String × JValue)}
    (hnames : (secs.map Prod.fst).Nodup)
    (hdnd : (dsec.map Prod.fst).Nodup)
    (hobj : ∀ s', s' ∈ secs.map Prod.fst → ∀ v, jLookup s' fs = some v →
      isObjB v = true)
    (hmem : (s, dsec) ∈ secs)
    (hsfs : jLookup s fs = some (.obj sfs)) :
    ∃ rsec, jLookup s (mergeModel secs fs) = some (.obj rsec) ∧
      (∀ k dv, (k, dv) ∈ dsec →
        (jLookup k sfs = none → jLookup k rsec = some dv) ∧
        (∀ cv, jLookup k sfs = some cv → jLookup k rsec = some cv)) ∧
      (∀ k, k ∉ dsec.map Prod.fst → jLookup k rsec = jLookup k sfs) := by
  induction secs generalizing fs with
  | nil => simp at hmem
  | cons p rest ih =>
    obtain ⟨s0, dsec0⟩ := p
    simp only [List.map_cons, List.nodup_cons] at hnames
    rcases List.mem_cons.mp hmem with heq | hmem'
    · injection heq with h1 h2
      subst h1
      subst h2
      rw [show mergeModel ((s, dsec) :: rest) fs =
          mergeModel rest (setKey fs s (.obj (fillSec sfs dsec))) from by
        simp [mergeModel, hsfs]]
      refine ⟨fillSec sfs dsec, ?_, ?_, ?_⟩
      · rw [mergeModel_lookup_out hnames.1, jLookup_setKey_self]
      · intro k dv hkdv
        exact ⟨fun hn => fillSec_lookup_none hdnd hkdv hn,
               fun cv hc => fillSec_lookup_some hc⟩
      · intro k hk
        exact fillSec_lookup_out hk
    · have hss : s ≠ s0 := by
        intro hx
        apply hnames.1
        rw [← hx]
        exact List.mem_map_of_mem Prod.fst hmem'
      cases hy : jLookup s0 fs with
      | some v =>
        have hv : isObjB v = true := hobj s0 (by simp) v hy
        obtain ⟨sfs0, rfl⟩ := isObjB_iff.mp hv
        rw [show mergeModel ((s0, dsec0) :: rest) fs =
            mergeModel rest (setKey fs s0 (.obj (fillSec sfs0 dsec0))) from by
          simp [mergeModel, hy]]
        exact ih hnames.2
          (objHyp_setKey (fun s' hs' => hobj s' (by simp [hs']))) hmem'
          (by rw [jLookup_setKey_ne hss]; exact hsfs)
      | none =>
        rw [show mergeModel ((s0, dsec0) :: rest) fs =
            mergeModel rest (fs ++ [(s0, .obj dsec0)]) from by
          simp [mergeModel, hy]]
        exact ih hnames.2
          (objHyp_append (fun s' hs' => hobj s' (by simp [hs']))) hmem'
          (by rw [jLookup_append_one_ne hss]; exact hsfs)

theorem sharedSectionsAreObjs_spec {fs : List (String × JValue)}
    (h : sharedSectionsAreObjs fs = true) :
    ∀ s, s ∈ defaultRules.map Prod.fst → ∀ v, jLookup s fs = some v →
      isObjB v = true := by
  intro s hs v hv
  have hx := List.all_eq_true.mp h s hs
  rw [hv] at hx
  exact hx

/-! ## Claim theorems -/

/-- C1: for every scene document and every rule set, the `ValidationResult`
returned by `validate_scene_json` has `valid = true` if and only if its
`errors` sequence is empty; the content of `warnings` never affects
`valid`. -/
theorem C1_valid_iff_errors_empty (rules : JValue)
    (gen : String → Option JValue) (scene : JValue) (r : VResult)
    (h : validate_scene_json rules gen scene = .ok r) :
    r.valid = true ↔ r.errors = [] := by
  unfold validate_scene_json at h
  split at h
  · cases h
  · split at h
    · cases h
      simp
    · split at h
      · cases h
      · split at h
        · cases h
        · split at h
          · cases h
          · cases h
            simp [List.isEmpty_iff]

/-- C1 witness: the theorem applied to a concrete run (default rules, a
collaborator that raises, and the spec's 720x480 example scene). -/
theorem C1_valid_iff_errors_empty_witness :
    (VResult.mk false [.str (techMsg "resolution" (.str "720x480") resAllowed)]
      []).valid = true ↔
    (VResult.mk false [.str (techMsg "resolution" (.str "720x480") resAllowed)]
      []).errors = [] :=
  C1_valid_iff_errors_empty defaultRulesJ genNone sceneC4 _ (by rfl)

/-- C3: a scene document missing at least one required field makes
`validate_scene_json` return immediately — for every rule set and every
collaborator — with `valid = false`, exactly one error listing all the
missing field names comma-joined, and no warnings. -/
theorem C3_missing_fields_early_return (rules : JValue)
    (gen : String → Option JValue) (scene : JValue) (missing : List String)
    (hm : missingFields requiredFields scene = .ok missing)
    (hne : missing ≠ []) :
    validate_scene_json rules gen scene =
      .ok ⟨false, [.str (missingMsg missing)], []⟩ := by
  unfold validate_scene_json
  rw [hm]
  dsimp only
  rw [if_pos (by simp [List.isEmpty_iff, hne])]

/-- C3 witness: a scene carrying only `sceneName` (plus an invalid
technical block that is skipped) yields exactly the missing-fields
error. -/
theorem C3_missing_fields_early_return_witness :
    validate_scene_json defaultRulesJ genNone sceneMissing =
      .ok ⟨false,
        [.str (missingMsg
          ["sceneNumber", "location", "timeOfDay", "characters", "props"])],
        []⟩ :=
  C3_missing_fields_early_return defaultRulesJ genNone sceneMissing
    ["sceneNumber", "location", "timeOfDay", "characters", "props"]
    (by rfl) (by simp)

/-- C8: merging the empty partial ruleset over the defaults is the
identity: `_load_rules` returns the hardcoded default ruleset when no
rules source is given, when reading or parsing the source raises, and when
the source parses to an empty record. -/
theorem C8_empty_merge_identity :
    load_rules none = defaultRulesJ ∧
    load_rules (some none) = defaultRulesJ ∧
    load_rules (some (some (.obj []))) = defaultRulesJ :=
  ⟨rfl, rfl, rfl⟩

/-- C2: merging a partial ruleset `R` (a dict with unique keys whose
sections shared with the defaults are themselves dicts, as any JSON-parsed
ruleset is) over the hardcoded defaults `D` yields a ruleset that contains
every section of `D`; for each section present in both, every key of `D`'s
section is present in the result, `R`'s value winning when a key is
present in both; and sections and keys of `R` absent from `D` are
preserved unchanged. -/
theorem C2_merge_shape (fs : List (String × JValue))
    (hnd : (fs.map Prod.fst).Nodup)
    (hobjs : sharedSectionsAreObjs fs = true) :
    ∃ res : List (String × JValue),
      mergeSections defaultRules (.obj fs) = .ok (.obj res) ∧
      load_rules (some (some (.obj fs))) = .obj res ∧
      (∀ s dsec, (s, dsec) ∈ defaultRules → ∃ rv, jLookup s res = some rv) ∧
      (∀ s dsec sfs, (s, dsec) ∈ defaultRules →
        jLookup s fs = some (.obj sfs) →
        ∃ rsec, jLookup s res = some (.obj rsec) ∧
          (∀ k dv, (k, dv) ∈ dsec →
            (jLookup k sfs = none → jLookup k rsec = some dv) ∧
            (∀ cv, jLookup k sfs = some cv → jLookup k rsec = some cv)) ∧
          (∀ k, k ∉ dsec.map Prod.fst → jLookup k rsec = jLookup k sfs)) ∧
      (∀ s, s ∉ defaultRules.map Prod.fst → jLookup s res = jLookup s fs) := by
  have hobj := sharedSectionsAreObjs_spec hobjs
  have hms : mergeSections defaultRules (.obj fs) =
      .ok (.obj (mergeModel defaultRules fs)) :=
    mergeSections_obj hnd hobj
  refine ⟨mergeModel defaultRules fs, hms, ?_, ?_, ?_, ?_⟩
  · unfold load_rules
    dsimp only
    rw [hms]
  · intro s dsec hmem
    exact Option.isSome_iff_exists.mp (mergeModel_section_present hobj hmem)
  · intro s dsec sfs hmem hsfs
    have hnames : (defaultRules.map Prod.fst).Nodup := by decide
    have hdnd : (dsec.map Prod.fst).Nodup := by
      simp only [defaultRules, List.mem_cons, List.not_mem_nil, or_false,
        Prod.mk.injEq] at hmem
      rcases hmem with ⟨h1, h2⟩ | ⟨h1, h2⟩ | ⟨h1, h2⟩ <;> subst h2 <;> decide
    exact mergeModel_shared_section hnames hdnd hobj hmem hsfs
  · intro s hs
    exact mergeModel_lookup_out hs

/-- C2 witness: the theorem applied to a concrete partial ruleset that
overrides resolutions, adds an unknown key to the technical section, and
adds an unknown section. -/
theorem C2_merge_shape_witness :
    ∃ res : List (String × JValue),
      mergeSections defaultRules (.obj customRules) = .ok (.obj res) ∧
      load_rules (some (some (.obj customRules))) = .obj res ∧
      (∀ s dsec, (s, dsec) ∈ defaultRules → ∃ rv, jLookup s res = some rv) ∧
      (∀ s dsec sfs, (s, dsec) ∈ defaultRules →
        jLookup s customRules = some (.obj sfs) →
        ∃ rsec, jLookup s res = some (.obj rsec) ∧
          (∀ k dv, (k, dv) ∈ dsec →
            (jLookup k sfs = none → jLookup k rsec = some dv) ∧
            (∀ cv, jLookup k sfs = some cv → jLookup k rsec = some cv)) ∧
          (∀ k, k ∉ dsec.map Prod.fst → jLookup k rsec = jLookup k sfs)) ∧
      (∀ s, s ∉ defaultRules.map Prod.fst →
        jLookup s res = jLookup s customRules) :=
  C2_merge_shape customRules (by decide) (by decide)

/-- Shared helper: whenever the composition gate is passed (block present,
`enforceRuleOfThirds` truthy) and the block carries a falsy `ruleOfThirds`
value, `compositionPhase` appends exactly the rule-of-thirds warning. -/
theorem compositionPhase_appends {rules scene crules flag comp v : JValue}
    {warnings : List JValue}
    (h1 : pyMem (.str "composition") scene = .ok true)
    (h2 : pyGet "composition" rules = .ok crules)
    (h3 : pyGet "enforceRuleOfThirds" crules = .ok flag)
    (h4 : pyTruthy flag = true)
    (h5 : pyGet "composition" scene = .ok comp)
    (h6 : pyMem (.str "ruleOfThirds") comp = .ok true)
    (h7 : pyGet "ruleOfThirds" comp = .ok v)
    (h8 : pyTruthy v = false) :
    compositionPhase rules scene warnings =
      .ok (warnings ++ [.str rotWarning]) := by
  unfold compositionPhase
  rw [h1]
  dsimp only
  rw [h2]
  dsimp only
  rw [h3]
  dsimp only
  rw [h4, if_pos rfl, h5]
  dsimp only
  rw [h6]
  dsimp only
  rw [h7]
  dsimp only
  rw [h8, if_neg (by simp)]

/-- C4: for each of resolution, frame rate and color space present in the
scene's technical block with a value outside the corresponding allowed set
of the effective ruleset, the validator appends an error naming the value
and the allowed set; absent fields contribute no error; and on the spec's
720x480 example scene under the default rules, `validate_scene_json`
returns `valid = false` with exactly that one resolution error (whose text
mentions the offending value and every allowed resolution) and zero
warnings, for every collaborator. -/
theorem C4_technical_checks :
    (∀ fname label tech trules errors v allowed,
      pyMem (.str fname) tech = .ok true →
      pyGet fname tech = .ok v →
      pyGet fname trules = .ok allowed →
      pyMem v allowed = .ok false →
      techCheck fname label tech trules errors =
        .ok (errors ++ [.str (techMsg label v allowed)])) ∧
    (∀ fname label tech trules errors,
      pyMem (.str fname) tech = .ok false →
      techCheck fname label tech trules errors = .ok errors) ∧
    (∀ rules scene errors,
      pyMem (.str "technical") scene = .ok false →
      technicalPhase rules scene errors = .ok errors) ∧
    (∀ gen, validate_scene_json defaultRulesJ gen sceneC4 =
      .ok ⟨false, [.str (techMsg "resolution" (.str "720x480") resAllowed)],
        []⟩) ∧
    (strIn "720x480"
      (techMsg "resolution" (.str "720x480") resAllowed) = true) ∧
    (strIn "1920x1080"
      (techMsg "resolution" (.str "720x480") resAllowed) = true ∧
     strIn "3840x2160"
      (techMsg "resolution" (.str "720x480") resAllowed) = true ∧
     strIn "4096x2160"
      (techMsg "resolution" (.str "720x480") resAllowed) = true) := by
  refine ⟨?_, ?_, ?_, ?_, ?_, ?_⟩
  · intro fname label tech trules errors v allowed h1 h2 h3 h4
    unfold techCheck
    rw [h1]
    dsimp only
    rw [h2]
    dsimp only
    rw [h3]
    dsimp only
    rw [h4]
  · intro fname label tech trules errors h1
    unfold techCheck
    rw [h1]
  · intro rules scene errors h1
    unfold technicalPhase
    rw [h1]
  · intro gen
    rfl
  · rfl
  · exact ⟨rfl, rfl, rfl⟩

/-- C4 witness: the per-field check applied concretely to the 720x480
technical block against the default technical rules. -/
theorem C4_technical_checks_witness :
    techCheck "resolution" "resolution"
      (.obj [("resolution", .str "720x480")]) (.obj defaultTechnical) [] =
      .ok ([] ++ [.str (techMsg "resolution" (.str "720x480") resAllowed)]) :=
  C4_technical_checks.1 "resolution" "resolution"
    (.obj [("resolution", .str "720x480")]) (.obj defaultTechnical) []
    (.str "720x480") resAllowed rfl rfl rfl rfl

/-- C5: the composition check runs only when the ruleset's
`composition.enforceRuleOfThirds` is truthy and the scene carries a
composition block; a block that explicitly sets `ruleOfThirds` to `false`
produces the rule-of-thirds warning (appended to warnings, never to
errors), the check is skipped when the block is absent or the flag falsy,
and on a complete scene under default rules the warning alone leaves the
scene valid with no errors. -/
theorem C5_rule_of_thirds_warning :
    (∀ rules scene crules flag comp warnings,
      pyMem (.str "composition") scene = .ok true →
      pyGet "composition" rules = .ok crules →
      pyGet "enforceRuleOfThirds" crules = .ok flag →
      pyTruthy flag = true →
      pyGet "composition" scene = .ok comp →
      pyMem (.str "ruleOfThirds") comp = .ok true →
      pyGet "ruleOfThirds" comp = .ok (.bool false) →
      compositionPhase rules scene warnings =
        .ok (warnings ++ [.str rotWarning])) ∧
    (∀ rules scene warnings,
      pyMem (.str "composition") scene = .ok false →
      compositionPhase rules scene warnings = .ok warnings) ∧
    (∀ rules scene crules flag warnings,
      pyMem (.str "composition") scene = .ok true →
      pyGet "composition" rules = .ok crules →
      pyGet "enforceRuleOfThirds" crules = .ok flag →
      pyTruthy flag = false →
      compositionPhase rules scene warnings = .ok warnings) ∧
    (∀ gen, validate_scene_json defaultRulesJ gen sceneRotFalse =
      .ok ⟨true, [], [.str rotWarning]⟩) := by
  refine ⟨?_, ?_, ?_, ?_⟩
  · intro rules scene crules flag comp warnings h1 h2 h3 h4 h5 h6 h7
    exact compositionPhase_appends h1 h2 h3 h4 h5 h6 h7 rfl
  · intro rules scene warnings h1
    unfold compositionPhase
    rw [h1]
  · intro rules scene crules flag warnings h1 h2 h3 h4
    unfold compositionPhase
    rw [h1]
    dsimp only
    rw [h2]
    dsimp only
    rw [h3]
    dsimp only
    rw [h4, if_neg (by simp)]
  · intro gen
    rfl

/-- C5 witness: the warning-appending branch applied concretely to the
scene whose composition block sets `ruleOfThirds` to `false`, under the
default rules. -/
theorem C5_rule_of_thirds_warning_witness :
    compositionPhase defaultRulesJ sceneRotFalse [] =
      .ok ([] ++ [.str rotWarning]) :=
  C5_rule_of_thirds_warning.1 defaultRulesJ sceneRotFalse
    (.obj defaultComposition) (.bool true)
    (.obj [("ruleOfThirds", .bool false)]) []
    rfl rfl rfl rfl rfl rfl rfl

/-- C10: the rule-of-thirds check is a truthiness test, not an equality
test against `false`: every falsy `ruleOfThirds` value (`false`, `0`,
the empty string, `null`, the empty list) triggers the warning under an
enforcing ruleset, as the concrete run with the value `0` shows
end-to-end. -/
theorem C10_falsy_rule_of_thirds :
    (pyTruthy (.bool false) = false ∧ pyTruthy (.int 0) = false ∧
     pyTruthy (.str "") = false ∧ pyTruthy .null = false ∧
     pyTruthy (.arr []) = false) ∧
    (∀ rules scene crules flag comp v warnings,
      pyMem (.str "composition") scene = .ok true →
      pyGet "composition" rules = .ok crules →
      pyGet "enforceRuleOfThirds" crules = .ok flag →
      pyTruthy flag = true →
      pyGet "composition" scene = .ok comp →
      pyMem (.str "ruleOfThirds") comp = .ok true →
      pyGet "ruleOfThirds" comp = .ok v →
      pyTruthy v = false →
      compositionPhase rules scene warnings =
        .ok (warnings ++ [.str rotWarning])) ∧
    (∀ gen, validate_scene_json defaultRulesJ gen sceneRotZero =
      .ok ⟨true, [], [.str rotWarning]⟩) := by
  refine ⟨⟨rfl, rfl, rfl, rfl, rfl⟩, ?_, ?_⟩
  · intro rules scene crules flag comp v warnings h1 h2 h3 h4 h5 h6 h7 h8
    exact compositionPhase_appends h1 h2 h3 h4 h5 h6 h7 h8
  · intro gen
    rfl

/-- C10 witness: the truthiness branch applied concretely to a composition
block carrying the falsy non-boolean `0`. -/
theorem C10_falsy_rule_of_thirds_witness :
    compositionPhase defaultRulesJ sceneRotZero [] =
      .ok ([] ++ [.str rotWarning]) :=
  C10_falsy_rule_of_thirds.2.1 defaultRulesJ sceneRotZero
    (.obj defaultComposition) (.bool true)
    (.obj [("ruleOfThirds", .int 0)]) (.int 0) []
    rfl rfl rfl rfl rfl rfl rfl rfl

/-- Shared helper: under the C6 conditions (checkProps falsy, or the scene
a dict whose `previousScenes` is absent or the empty list), the continuity
gate either evaluates to `false` or raises before any collaborator
call. -/
theorem contGate_no_call {rules scene : JValue}
    (h : (∃ cont cp, pyGet "continuity" rules = .ok cont ∧
            pyGet "checkProps" cont = .ok cp ∧ pyTruthy cp = false) ∨
         (∃ fs, scene = .obj fs ∧
            (jLookup "previousScenes" fs = none ∨
             jLookup "previousScenes" fs = some (.arr [])))) :
    contGate rules scene = .ok false ∨ contGate rules scene = .error () := by
  rcases h with ⟨cont, cp, h1, h2, h3⟩ | ⟨fs, rfl, hprev⟩
  · left
    unfold contGate
    rw [h1]
    dsimp only
    rw [h2]
    dsimp only
    rw [h3, if_neg (by simp)]
  · unfold contGate
    cases hcont : pyGet "continuity" rules with
    | error e =>
      right
      cases e
      rfl
    | ok cont =>
      dsimp only
      cases hcp : pyGet "checkProps" cont with
      | error e =>
        right
        cases e
        rfl
      | ok cp =>
        dsimp only
        left
        cases hcv : pyTruthy cp with
        | false => rw [if_neg (by simp)]
        | true =>
          rw [if_pos rfl]
          have hdg : pyDictGet (.obj fs) "previousScenes" (.arr []) =
              .ok (.arr []) := by
            unfold pyDictGet
            dsimp only
            rcases hprev with hp | hp <;> rw [hp]
          rw [hdg]
          rfl

/-- C6: when `previousScenes` is empty or absent, or the effective
ruleset's `continuity.checkProps` is falsy, `validate_scene_json` makes no
call to the text-generation collaborator: any two collaborator behaviours
produce the same result. -/
theorem C6_no_collaborator_call (rules scene : JValue)
    (h : (∃ cont cp, pyGet "continuity" rules = .ok cont ∧
            pyGet "checkProps" cont = .ok cp ∧ pyTruthy cp = false) ∨
         (∃ fs, scene = .obj fs ∧
            (jLookup "previousScenes" fs = none ∨
             jLookup "previousScenes" fs = some (.arr [])))) :
    ∀ g₁ g₂ : String → Option JValue,
      validate_scene_json rules g₁ scene = validate_scene_json rules g₂ scene := by
  intro g₁ g₂
  have hphase : ∀ e w, continuityPhase rules g₁ scene e w =
      continuityPhase rules g₂ scene e w := by
    intro e w
    unfold continuityPhase
    rcases contGate_no_call h with hg | hg <;> rw [hg]
  unfold validate_scene_json
  cases missingFields requiredFields scene with
  | error e => rfl
  | ok missing =>
    dsimp only
    cases missing.isEmpty with
    | false => rfl
    | true =>
      rw [if_neg (by simp), if_neg (by simp)]
      cases technicalPhase rules scene [] with
      | error e => rfl
      | ok errors1 =>
        dsimp only
        cases compositionPhase rules scene [] with
        | error e => rfl
        | ok warnings1 =>
          dsimp only
          rw [hphase errors1 warnings1]

/-- C6 witness: concrete instantiation on the 720x480 example scene, which
has no `previousScenes`: a raising collaborator and a responding
collaborator give identical results. -/
theorem C6_no_collaborator_call_witness :
    validate_scene_json defaultRulesJ genNone sceneC4 =
      validate_scene_json defaultRulesJ genEmptyObj sceneC4 :=
  C6_no_collaborator_call defaultRulesJ sceneC4
    (Or.inr ⟨[("sceneName", .str "S1"), ("sceneNumber", .int 1),
      ("location", .str "Loft"), ("timeOfDay", .str "Day"),
      ("characters", .arr [.str "A"]), ("props", .arr []),
      ("technical", .obj [("resolution", .str "720x480")])],
      rfl, Or.inl rfl⟩)
    genNone genEmptyObj

/-- C7 counterexample: a scene that triggers the continuity check, with a
collaborator whose response parses fine but carries neither
`continuityErrors` nor `continuityWarnings` ("fields missing"), yields a
result with NO warnings at all — the claimed single generic warning is not
appended (the two `if "…" in analysis` guards are simply false, and only
an exception reaches the `except` handler that appends it). -/
theorem C7_missing_fields_counterexample :
    validate_scene_json defaultRulesJ genEmptyObj scenePrev =
      .ok ⟨true, [], []⟩ := rfl

/-- C7 (amended): when the continuity check is triggered, an exception —
collaborator raising or a non-parseable response — appends exactly one
generic warning and neither raises nor invalidates the scene; but a
response that parses with the two fields missing contributes nothing at
all (no findings and no warning).  Concretely, the raising collaborator on
a scene with previous scenes yields a valid result whose only warning is
the generic one. -/
theorem C7_continuity_failure_amended :
    (∀ (rules : JValue) (gen : String → Option JValue) (scene prev : JValue)
        (e w : List JValue),
      contGate rules scene = .ok true →
      pyDictGet scene "previousScenes" (.arr []) = .ok prev →
      gen (continuityPrompt scene prev) = none →
      continuityPhase rules gen scene e w =
        .ok (e, w ++ [.str contFailWarning])) ∧
    (∀ (rules : JValue) (gen : String → Option JValue)
        (scene prev analysis : JValue) (e w : List JValue),
      contGate rules scene = .ok true →
      pyDictGet scene "previousScenes" (.arr []) = .ok prev →
      gen (continuityPrompt scene prev) = some analysis →
      pyMem (.str "continuityErrors") analysis = .ok false →
      pyMem (.str "continuityWarnings") analysis = .ok false →
      continuityPhase rules gen scene e w = .ok (e, w)) ∧
    (validate_scene_json defaultRulesJ genNone scenePrev =
      .ok ⟨true, [], [.str contFailWarning]⟩) := by
  refine ⟨?_, ?_, ?_⟩
  · intro rules gen scene prev e w h1 h2 h3
    unfold continuityPhase
    rw [h1]
    dsimp only
    rw [h2]
    dsimp only
    rw [h3]
  · intro rules gen scene prev analysis e w h1 h2 h3 h4 h5
    unfold continuityPhase
    rw [h1]
    dsimp only
    rw [h2]
    dsimp only
    rw [h3]
    dsimp only
    unfold contApply
    rw [h4]
    dsimp only
    rw [h5]
    simp
  · rfl

/-- C7 witness: the amended exception branch applied concretely — the
always-raising collaborator on the previous-scenes test scene appends
exactly the generic warning. -/
theorem C7_continuity_failure_amended_witness :
    continuityPhase defaultRulesJ genNone scenePrev [] [] =
      .ok ([], [] ++ [.str contFailWarning]) :=
  C7_continuity_failure_amended.1 defaultRulesJ genNone scenePrev
    (.arr [.str "s0"]) [] [] rfl rfl rfl

/-- A bullet line starts with a dash, so it is never the Errors header. -/
theorem bullet_ne_errors (t : String) : ("- " ++ t) ≠ "## Errors" := by
  intro h
  have h2 := congrArg String.data h
  cases t with
  | mk d => simp [String.data] at h2

/-- A bullet line starts with a dash, so it is never the Warnings
header. -/
theorem bullet_ne_warnings (t : String) : ("- " ++ t) ≠ "## Warnings" := by
  intro h
  have h2 := congrArg String.data h
  cases t with
  | mk d => simp [String.data] at h2

/-- C9: `generate_report` renders a fixed-structure text — title,
pass/fail status line, an Errors section (one bullet per error) present
exactly when there are errors, a Warnings section likewise — returns the
same text whatever happens to the optional output write, and on
`{valid: true, errors: [], warnings: ["w1"]}` produces exactly the text
with a pass indicator, no Errors section, and a single `- w1` bullet under
Warnings. -/
theorem C9_report_structure :
    (∀ r w₁ w₂, generate_report r w₁ = generate_report r w₂) ∧
    (∀ r : VResult, r.errors = [] → "## Errors" ∉ reportLines r) ∧
    (∀ r : VResult, r.errors ≠ [] → "## Errors" ∈ reportLines r) ∧
    (∀ r : VResult, r.warnings = [] → "## Warnings" ∉ reportLines r) ∧
    (∀ r : VResult, r.warnings ≠ [] → "## Warnings" ∈ reportLines r) ∧
    (∀ (r : VResult) e, e ∈ r.errors →
      ("- " ++ pyStr e) ∈ reportLines r) ∧
    (∀ (r : VResult) w, w ∈ r.warnings →
      ("- " ++ pyStr w) ∈ reportLines r) ∧
    (generate_report ⟨true, [], [.str "w1"]⟩ none =
      "# Scene Validation Report\n\n## ✅ Scene is valid\n\n## Warnings\n- w1\n") ∧
    (strIn "## Errors" (generate_report ⟨true, [], [.str "w1"]⟩ none) = false ∧
     strIn "## Warnings" (generate_report ⟨true, [], [.str "w1"]⟩ none) = true ∧
     strIn "- w1" (generate_report ⟨true, [], [.str "w1"]⟩ none) = true ∧
     strIn "✅" (generate_report ⟨true, [], [.str "w1"]⟩ none) = true) := by
  refine ⟨?_, ?_, ?_, ?_, ?_, ?_, ?_, ?_, ?_⟩
  · intro r w₁ w₂
    rfl
  · intro r h hmem
    obtain ⟨valid, errors, warnings⟩ := r
    simp only at h
    subst h
    cases valid <;> by_cases hw : warnings.isEmpty <;>
      simp [reportLines, hw] at hmem <;>
      obtain ⟨w, hw1, hw2⟩ := hmem <;>
      exact bullet_ne_errors (pyStr w) hw2
  · intro r h
    have he : r.errors.isEmpty = false := by simp [List.isEmpty_iff, h]
    simp [reportLines, he]
  · intro r h hmem
    obtain ⟨valid, errors, warnings⟩ := r
    simp only at h
    subst h
    cases valid <;> by_cases he : errors.isEmpty <;>
      simp [reportLines, he] at hmem <;>
      obtain ⟨w, hw1, hw2⟩ := hmem <;>
      exact bullet_ne_warnings (pyStr w) hw2
  · intro r h
    have hw : r.warnings.isEmpty = false := by simp [List.isEmpty_iff, h]
    simp [reportLines, hw]
  · intro r e he
    have hne : r.errors.isEmpty = false := by
      simp [List.isEmpty_iff]
      exact List.ne_nil_of_mem he
    have hb : ("- " ++ pyStr e) ∈ r.errors.map (fun x => "- " ++ pyStr x) :=
      List.mem_map_of_mem _ he
    simp only [reportLines, hne, Bool.false_eq_true, if_false,
      List.mem_append, List.mem_cons]
    tauto
  · intro r w hw
    have hnw : r.warnings.isEmpty = false := by
      simp [List.isEmpty_iff]
      exact List.ne_nil_of_mem hw
    have hb : ("- " ++ pyStr w) ∈ r.warnings.map (fun x => "- " ++ pyStr x) :=
      List.mem_map_of_mem _ hw
    simp only [reportLines, hnw, Bool.false_eq_true, if_false,
      List.mem_append, List.mem_cons]
    tauto
  · rfl
  · exact ⟨rfl, rfl, rfl, rfl⟩

/-- C9 witness: the Errors-section presence conjunct applied to a concrete
failing result, and the omission conjunct to a concrete passing one. -/
theorem C9_report_structure_witness :
    "## Errors" ∈ reportLines ⟨false, [.str "e1"], []⟩ ∧
    "## Errors" ∉ reportLines ⟨true, [], [.str "w1"]⟩ :=
  ⟨C9_report_structure.2.2.1 ⟨false, [.str "e1"], []⟩ (by simp),
   C9_report_structure.2.1 ⟨true, [], [.str "w1"]⟩ (by simp)⟩
